import Mathlib

/-!
Verification of the patapsco pipeline orchestration engine.

This file gives a shallow embedding in Lean 4 of the core orchestration code:

* `src/patapsco/pipeline.py` — `Task` (default `batch_process`, `end`,
  `run_reduce`), `TimedTask`, `MultiplexItem`/`MultiplexTask`,
  `StreamingPipeline`/`BatchPipeline`;
* `src/pipeline/system.py` — `System.__init__`, `build_phase1_pipeline`,
  `build_phase2_pipeline`, `add_io_task`;
* `src/patapsco/retrieve.py` — `RetrieverFactory.create` (the `.multiplex`
  manifest reader).

Python machine state (filesystem effects, error raising) is made explicit:
filesystem contents are a record of path sets/maps, side effects are event
traces, and raised exceptions are `Except` errors.  Definitions whose Python
source lives in the `util` package (not part of the sources verified here)
are modelled from the spec and say so in their doc comment.
-/

namespace Patapsco

/-- A filesystem path, as a list of components (`pathlib.Path` parts). -/
abbrev Path := List String

/-- The repository's error hierarchy (`ConfigError`, `ParseError`,
`PipelineError` in the `error` module), with the raised message. -/
inductive PError
  | configError (msg : String)
  | parseError (msg : String)
  | pipelineError (msg : String)
deriving DecidableEq, Repr

/-- Classifier for the kind of error inside an `Except` result. -/
inductive ErrKind
  | config
  | parse
  | pipeline
deriving DecidableEq, Repr

/-- The kind of a raised error, `none` when the computation succeeded. -/
def errKind {γ : Type} : Except PError γ → Option ErrKind
  | .ok _ => none
  | .error (.configError _) => some .config
  | .error (.parseError _) => some .parse
  | .error (.pipelineError _) => some .pipeline

/-! ## Task.batch_process (default implementation)

`src/patapsco/pipeline.py` lines 42-51: the default `batch_process` is the
list comprehension `[self.process(item) for item in items]`. -/

/-- `Task.batch_process` default body: `[self.process(item) for item in items]`. -/
def batch_process {α β : Type} (process : α → β) (items : List α) : List β :=
  items.map process

/-! ## Streaming and batch pipeline drivers

`StreamingPipeline.run` pulls one item at a time and passes it through the
task chain; `BatchPipeline.run` pulls chunks from a `ChunkedIterator` and
passes each chunk through the chain via `batch_process`.  For a chain of
tasks whose `batch_process` is the default, a task is characterised by its
`process` function, so a chain is a `List (α → α)` (Python is untyped, so
one carrier type threads through the whole chain). -/

/-- `ChunkedIterator` splitting: take `n` elements at a time. -/
def chunkList {α : Type} (n : Nat) (xs : List α) : List (List α) :=
  if xs.isEmpty then []
  else if n = 0 then [xs]
  else xs.take n :: chunkList n (xs.drop n)
termination_by xs.length
decreasing_by
  simp only [List.isEmpty_iff] at *
  simp only [List.length_drop]
  exact Nat.sub_lt (List.length_pos.mpr (by assumption)) (Nat.pos_of_ne_zero (by assumption))

/-- Modelled from the spec: `ChunkedIterator` (in the `util` package, not
among the verified sources) groups the input sequence into bounded-size
chunks of size `n`, "or one chunk containing the whole input if unbounded"
(`n = none`, the Python `None` batch size). -/
def chunks {α : Type} (n : Option Nat) (xs : List α) : List (List α) :=
  match n with
  | none => if xs.isEmpty then [] else [xs]
  | some n => chunkList n xs

/-- `StreamingPipeline.run`: `for item in self.iterator: for task in
self.tasks: item = task.process(item)`.  The observable output sequence is
the final value of each item after traversing the chain. -/
def streamingRun {α : Type} (tasks : List (α → α)) (input : List α) : List α :=
  input.map (fun item => tasks.foldl (fun item task => task item) item)

/-- `BatchPipeline.run`: `for chunk in self.iterator: for task in
self.tasks: chunk = task.batch_process(chunk)`, over a `ChunkedIterator`
with batch size `n`; tasks use the default `batch_process`.  The observable
output sequence is the concatenation of the processed chunks. -/
def batchRun {α : Type} (n : Option Nat) (tasks : List (α → α)) (input : List α) : List α :=
  ((chunks n input).map (fun chunk => tasks.foldl (fun chunk task => batch_process task chunk) chunk)).flatten

theorem chunkList_flatten {α : Type} (n : Nat) (xs : List α) :
    (chunkList n xs).flatten = xs := by
  induction xs using chunkList.induct n with
  | case1 xs h =>
    rw [List.isEmpty_iff] at h
    simp [chunkList, h]
  | case2 xs h hn =>
    rw [List.isEmpty_iff] at h
    simp [chunkList, h, hn]
  | case3 xs h hn ih =>
    rw [List.isEmpty_iff] at h
    rw [chunkList, if_neg (by simpa using h), if_neg hn]
    simp [ih]

theorem chunks_flatten {α : Type} (n : Option Nat) (xs : List α) :
    (chunks n xs).flatten = xs := by
  match n with
  | none =>
    by_cases h : xs.isEmpty
    · rw [List.isEmpty_iff] at h
      simp [chunks, h]
    · simp [chunks, h]
  | some n => exact chunkList_flatten n xs

/-- Pushing a chunk through the task chain with the default `batch_process`
equals mapping the composed chain over the chunk. -/
theorem foldl_batch_eq_map_chain {α : Type} (tasks : List (α → α)) (chunk : List α) :
    tasks.foldl (fun chunk task => batch_process task chunk) chunk
      = chunk.map (fun item => tasks.foldl (fun item task => task item) item) := by
  induction tasks generalizing chunk with
  | nil => simp
  | cons f ts ih =>
    simp only [List.foldl_cons]
    rw [ih (batch_process f chunk)]
    simp [batch_process, Function.comp]

/-- C2: For every input sequence and every chain of Tasks whose
`batch_process` is the default order-preserving per-record implementation,
running `BatchPipeline` with any chunk size `n` (including `none`, the whole
input as one chunk) produces exactly the same output record sequence, in the
same order, as running `StreamingPipeline` over the same input. -/
theorem batch_streaming_equivalence {α : Type} (tasks : List (α → α)) (input : List α)
    (n : Option Nat) :
    batchRun n tasks input = streamingRun tasks input := by
  unfold batchRun streamingRun
  calc ((chunks n input).map
          (fun chunk => tasks.foldl (fun chunk task => batch_process task chunk) chunk)).flatten
      = ((chunks n input).map
          (fun chunk => chunk.map
            (fun item => tasks.foldl (fun item task => task item) item))).flatten := by
        simp only [foldl_batch_eq_map_chain]
    _ = (chunks n input).flatten.map
          (fun item => tasks.foldl (fun item task => task item) item) := by
        rw [List.map_flatten]
    _ = input.map (fun item => tasks.foldl (fun item task => task item) item) := by
        rw [chunks_flatten]

/-- C8: For every Task that does not override `batch_process` and every list
of items, `batch_process items` returns the same-length, order-preserving
list `[process items[0], ..., process items[n-1]]`: element-wise application
of `process` in input order. -/
theorem batch_process_default_spec {α β : Type} (process : α → β) (items : List α) :
    (batch_process process items).length = items.length ∧
      ∀ i : Fin items.length,
        (batch_process process items).get ⟨i, by simp [batch_process]⟩
          = process (items.get i) := by
  refine ⟨by simp [batch_process], fun i => ?_⟩
  simp [batch_process]

/-! ## Filesystem-effect traces for Task lifecycle methods

`Task.end`, `Task.run_reduce`, `MultiplexTask.__init__/end/run_reduce`
perform filesystem side effects.  Each is embedded as a function producing
the ordered list of effects it performs. -/

/-- An artifact config value (opaque payload of `config.yml`). -/
abbrev Cfg := String

/-- One filesystem side effect performed by a lifecycle method. -/
inductive FsEvent
  | writeConfig (dir : Path) (cfg : Option Cfg)
  | touchComplete (dir : Path)
  | writeMultiplex (dir : Path) (splits : List String)
  | reduceCall (dirs : List Path)
  | childReduce (split : String) (dirs : List Path)
deriving DecidableEq, Repr

/-- The directory/config state of a plain `Task` (its `self.base` and
`self.artifact_config` fields). -/
structure TaskState where
  base : Option Path
  artifactConfig : Option Cfg
deriving DecidableEq, Repr

/-- `Task.end` (src/patapsco/pipeline.py lines 57-61): when `self.base` is
set, write the artifact-config snapshot to `base / config.yml` and then
`touch_complete(self.base)`; otherwise do nothing.  (`touch_complete` lives
in the `util` package; modelled from the spec as the single effect that sets
the directory's Completion Marker.) -/
def taskEnd (t : TaskState) : List FsEvent :=
  match t.base with
  | some b => [.writeConfig b t.artifactConfig, .touchComplete b]
  | none => []

/-- Lexicographic comparison of character lists by code point, as Python
compares strings. -/
def strLeAux : List Char → List Char → Bool
  | [], _ => true
  | _ :: _, [] => false
  | a :: as, b :: bs =>
    if a.toNat < b.toNat then true
    else if b.toNat < a.toNat then false
    else strLeAux as bs

/-- `a <= b` on strings: lexicographic by code point (Python string order,
used by `sorted` on the globbed paths). -/
def strLe (a b : String) : Bool :=
  strLeAux a.toList b.toList

/-- `as` is a prefix of `bs` (by code points). -/
def strPrefixAux : List Char → List Char → Bool
  | [], _ => true
  | _ :: _, [] => false
  | a :: as, b :: bs => a.toNat == b.toNat && strPrefixAux as bs

/-- `s` starts with `pre`: the match semantics of the glob pattern
`pre + '*'` on an entry name. -/
def strStartsWith (s pre : String) : Bool :=
  strPrefixAux pre.toList s.toList

theorem strLeAux_total (as : List Char) :
    ∀ bs, strLeAux as bs = true ∨ strLeAux bs as = true := by
  induction as with
  | nil => intro bs; left; rfl
  | cons a as ih =>
    intro bs
    cases bs with
    | nil => right; rfl
    | cons b bs =>
      by_cases h1 : a.toNat < b.toNat
      · left; simp [strLeAux, h1]
      · by_cases h2 : b.toNat < a.toNat
        · right; simp [strLeAux, h2]
        · rcases ih bs with h | h
          · left; simp [strLeAux, h1, h2, h]
          · right; simp [strLeAux, h1, h2, h]

theorem strLeAux_trans (as : List Char) :
    ∀ bs cs, strLeAux as bs = true → strLeAux bs cs = true → strLeAux as cs = true := by
  induction as with
  | nil => intro bs cs _ _; rfl
  | cons a as ih =>
    intro bs cs hab hbc
    match bs, cs with
    | [], _ => exact absurd hab (by simp [strLeAux])
    | _ :: _, [] => exact absurd hbc (by simp [strLeAux])
    | b :: bs, c :: cs =>
      simp only [strLeAux] at hab hbc ⊢
      by_cases h1 : a.toNat < b.toNat
      · by_cases h2 : b.toNat < c.toNat
        · simp [Nat.lt_trans h1 h2]
        · rw [if_neg h2] at hbc
          by_cases h3 : c.toNat < b.toNat
          · rw [if_pos h3] at hbc; exact absurd hbc (by simp)
          · have hac : a.toNat < c.toNat := by omega
            simp [hac]
      · rw [if_neg h1] at hab
        by_cases h4 : b.toNat < a.toNat
        · rw [if_pos h4] at hab; exact absurd hab (by simp)
        · rw [if_neg h4] at hab
          by_cases h2 : b.toNat < c.toNat
          · have hac : a.toNat < c.toNat := by omega
            simp [hac]
          · rw [if_neg h2] at hbc
            by_cases h3 : c.toNat < b.toNat
            · rw [if_pos h3] at hbc; exact absurd hbc (by simp)
            · rw [if_neg h3] at hbc
              have hac1 : ¬a.toNat < c.toNat := by omega
              have hac2 : ¬c.toNat < a.toNat := by omega
              rw [if_neg hac1, if_neg hac2]
              exact ih bs cs hab hbc

instance : IsTotal String (fun a b => strLe a b = true) :=
  ⟨fun a b => strLeAux_total a.toList b.toList⟩

instance : IsTrans String (fun a b => strLe a b = true) :=
  ⟨fun a b c => strLeAux_trans a.toList b.toList c.toList⟩

/-- The shard-directory names discovered by `glob('part*')` followed by
`sorted(...)`: the directory entries whose name starts with `part`, in
lexicographic order.  (All globbed paths share the same parent, so sorting
the `Path` objects coincides with sorting the entry names.) -/
def partNames (listing : List String) : List String :=
  List.insertionSort (fun a b => strLe a b = true)
    (listing.filter (fun s => strStartsWith s "part"))

/-- `Task.run_reduce` (src/patapsco/pipeline.py lines 71-75): when
`self.base` is set, compute `dirs = sorted(list(self.base.glob('part*')))`
and call `self.reduce(dirs)`; otherwise do nothing.  `listing` gives the
directory entries of each directory. -/
def taskRunReduce (t : TaskState) (listing : Path → List String) : List FsEvent :=
  match t.base with
  | some b => [.reduceCall ((partNames (listing b)).map (fun s => b ++ [s]))]
  | none => []

/-- The state of a `MultiplexTask`: its ordered child map `self.tasks`, its
`self.dir` attribute (absent = `none`; Python `hasattr` checks), and its
`self.artifact_config`. -/
structure MTask where
  tasks : List (String × TaskState)
  dir : Option Path
  artifactConfig : Option Cfg
deriving DecidableEq, Repr

/-- `MultiplexTask.__init__` when `splits` is a dict of pre-built tasks
(src/patapsco/pipeline.py lines 141-143): store the dict; `self.dir` is
never assigned, `self.artifact_config` stays `None` (from
`super().__init__()`), and no filesystem effect is performed. -/
def multiplexFromDict (tasks : List (String × TaskState)) : MTask × List FsEvent :=
  ({ tasks := tasks, dir := none, artifactConfig := none }, [])

/-- `MultiplexTask.__init__` when `splits` is a list of split names
(src/patapsco/pipeline.py lines 144-156): per split, deep-copy the config,
rewrite its output path to `outPath / split`, and create the child task via
`create_fn`; record `self.dir = outPath` and `self.artifact_config`; then
serialize `splits` to the `.multiplex` manifest in `self.dir`.  `createFn`
models `create_fn` applied to the config whose output path was rewritten to
the given subdirectory. -/
def multiplexFromSplits (splits : List String) (createFn : Path → TaskState)
    (outPath : Path) (cfg : Cfg) : MTask × List FsEvent :=
  ({ tasks := splits.map (fun s => (s, createFn (outPath ++ [s]))),
     dir := some outPath,
     artifactConfig := some cfg },
   [.writeMultiplex outPath splits])

/-- `MultiplexTask.end` (src/patapsco/pipeline.py lines 168-174): call every
child task's `end()` in order; then, if `self.dir` is set, write the shared
artifact-config snapshot (only when `self.artifact_config` is truthy) and
`touch_complete(self.dir)`. -/
def multiplexEnd (m : MTask) : List FsEvent :=
  (m.tasks.map (fun nt => taskEnd nt.2)).flatten ++
    (match m.dir with
     | some d =>
        (match m.artifactConfig with
         | some c => [FsEvent.writeConfig d (some c)]
         | none => []) ++ [FsEvent.touchComplete d]
     | none => [])

/-- `MultiplexTask.run_reduce` (src/patapsco/pipeline.py lines 176-181):
only when `self.dir` is set, discover `sorted(self.dir.glob('part*'))` and,
for each child in order, call its `reduce` on the child-named subdirectory
of each shard directory. -/
def multiplexRunReduce (m : MTask) (listing : Path → List String) : List FsEvent :=
  match m.dir with
  | none => []
  | some d =>
    let dirs := (partNames (listing d)).map (fun s => d ++ [s])
    m.tasks.map (fun nt => .childReduce nt.1 (dirs.map (fun p => p ++ [nt.1])))

/-! ## The .multiplex manifest round trip

The write side is `MultiplexTask.__init__` (`json.dump(splits, fp)` into
`self.dir / '.multiplex'`); the read side is `RetrieverFactory.create`
(src/patapsco/retrieve.py lines 37-52), which checks for the manifest under
the configured index path, loads the split list, and builds one retriever
per split over the split-named subdirectory.  JSON serialization of a list
of strings (Python stdlib) is abstracted as storing the list value. -/

/-- Manifest-file contents per path: `some splits` when the path holds a
serialized split list, `none` when no such file exists. -/
def ManifestFS := Path → Option (List String)

/-- Writing the `.multiplex` manifest of `dir`: `json.dump(splits, fp)` into
`dir / '.multiplex'`. -/
def writeMultiplexManifest (fs : ManifestFS) (dir : Path) (splits : List String) : ManifestFS :=
  fun q => if q = dir ++ [".multiplex"] then some splits else fs q

/-- Replay the manifest writes of an effect trace onto a manifest state. -/
def applyManifestEvents (fs : ManifestFS) : List FsEvent → ManifestFS
  | [] => fs
  | .writeMultiplex d splits :: evs => applyManifestEvents (writeMultiplexManifest fs d splits) evs
  | _ :: evs => applyManifestEvents fs evs

/-- Result of `RetrieverFactory.create` for a single string index path. -/
inductive RetrieverResult (ρ : Type)
  | single (r : ρ)
  | multiplex (tasks : List (String × ρ))
deriving DecidableEq, Repr

/-- `RetrieverFactory.create` (src/patapsco/retrieve.py lines 37-52), for a
single string index path: if `indexPath / '.multiplex'` does not exist,
build a single retriever; otherwise `json.load` the split list and build one
retriever per split (in order) over `indexPath / split`, wrapped as a
`MultiplexTask` dict.  `mk` models `super().create` on the config whose
index path was rewritten to the given path. -/
def retrieverFactoryCreate {ρ : Type} (fs : ManifestFS) (indexPath : Path)
    (mk : Path → ρ) : RetrieverResult ρ :=
  match fs (indexPath ++ [".multiplex"]) with
  | none => .single (mk indexPath)
  | some splits => .multiplex (splits.map (fun s => (s, mk (indexPath ++ [s]))))

/-- C3: For every Task that owns a base directory, `end()` writes the
artifact-config snapshot (config.yml) first and creates the Completion
Marker second — never the marker before the snapshot, and no write after
the marker; for a MultiplexTask (with its shared directory and artifact
config set), the shared snapshot and marker are written only after every
child task's `end()` has returned. -/
theorem end_snapshot_then_marker :
    (∀ (t : TaskState) (b : Path), t.base = some b →
        taskEnd t = [.writeConfig b t.artifactConfig, .touchComplete b]) ∧
    (∀ (m : MTask) (d : Path) (c : Cfg), m.dir = some d → m.artifactConfig = some c →
        multiplexEnd m
          = (m.tasks.map (fun nt => taskEnd nt.2)).flatten
              ++ [.writeConfig d (some c), .touchComplete d]) := by
  constructor
  · intro t b hb
    simp [taskEnd, hb]
  · intro m d c hd hc
    simp [multiplexEnd, hd, hc]

theorem end_snapshot_then_marker_witness :
    taskEnd { base := some ["runs", "index"], artifactConfig := some "cfg" }
        = [.writeConfig ["runs", "index"] (some "cfg"), .touchComplete ["runs", "index"]] ∧
      multiplexEnd
          { tasks := [("eng", { base := some ["runs", "q", "eng"], artifactConfig := some "c1" })],
            dir := some ["runs", "q"],
            artifactConfig := some "c2" }
        = [.writeConfig ["runs", "q", "eng"] (some "c1"), .touchComplete ["runs", "q", "eng"],
           .writeConfig ["runs", "q"] (some "c2"), .touchComplete ["runs", "q"]] := by
  constructor
  · exact end_snapshot_then_marker.1 _ ["runs", "index"] rfl
  · rw [end_snapshot_then_marker.2 _ ["runs", "q"] "c2" rfl rfl]
    decide

/-- Counterexample to C5 as stated: with base directory `["run"]` and no
`part*` entries at all (empty listing), `run_reduce` is not a no-op — it
still invokes `reduce`, passing the empty list. -/
theorem run_reduce_empty_still_invokes_reduce :
    partNames ([] : List String) = [] ∧
      taskRunReduce { base := some ["run"], artifactConfig := none } (fun _ => [])
        = [.reduceCall []] := by
  constructor
  · decide
  · decide

/-- C5 (amended): For every Task with a base directory, `run_reduce()`
discovers exactly the entries under the base directory matching the glob
pattern `part*`, in lexicographically sorted order, and unconditionally
invokes `reduce` on that list — also when the list is empty (the default
`reduce` being a no-op), rather than skipping the call. -/
theorem run_reduce_discovers_sorted_parts (t : TaskState) (b : Path)
    (listing : Path → List String) (h : t.base = some b) :
    taskRunReduce t listing
        = [.reduceCall ((partNames (listing b)).map (fun s => b ++ [s]))] ∧
      List.Sorted (fun a b => strLe a b = true) (partNames (listing b)) ∧
      List.Perm (partNames (listing b))
        ((listing b).filter (fun s => strStartsWith s "part")) := by
  refine ⟨by simp [taskRunReduce, h], ?_, ?_⟩
  · exact List.sorted_insertionSort _ _
  · exact List.perm_insertionSort _ _

theorem run_reduce_discovers_sorted_parts_witness :
    taskRunReduce { base := some ["run"], artifactConfig := none }
        (fun _ => ["part1", "part0", "docs"])
      = [.reduceCall [["run", "part0"], ["run", "part1"]]] := by
  have h := run_reduce_discovers_sorted_parts
    { base := some ["run"], artifactConfig := none } ["run"]
    (fun _ => ["part1", "part0", "docs"]) rfl
  rw [h.1]
  decide

theorem map_fst_map_pair {γ : Type} (f : String → γ) (splits : List String) :
    ((splits.map (fun s => (s, f s))).map Prod.fst) = splits := by
  induction splits with
  | nil => rfl
  | cons s ss ih => simp [ih]

/-- C9: For every list of split names used to construct a MultiplexTask via
the factory path, the list serialized to the `.multiplex` manifest in the
shared parent directory, when read back by the downstream
`RetrieverFactory.create`, reproduces the original split-name list in the
original order: the consumer takes the multiplex branch and builds exactly
one retriever per original split, in order, over the split-named
subdirectory. -/
theorem multiplex_manifest_roundtrip {ρ : Type} (fs : ManifestFS) (splits : List String)
    (outPath : Path) (cfg : Cfg) (createFn : Path → TaskState) (mk : Path → ρ) :
    retrieverFactoryCreate
        (applyManifestEvents fs (multiplexFromSplits splits createFn outPath cfg).2)
        outPath mk
      = .multiplex (splits.map (fun s => (s, mk (outPath ++ [s])))) ∧
      (splits.map (fun s => (s, mk (outPath ++ [s])))).map Prod.fst = splits ∧
      ((multiplexFromSplits splits createFn outPath cfg).1.tasks).map Prod.fst = splits := by
  refine ⟨?_, map_fst_map_pair _ _, map_fst_map_pair _ _⟩
  simp [multiplexFromSplits, applyManifestEvents, retrieverFactoryCreate, writeMultiplexManifest]

/-- C10: A MultiplexTask constructed from a pre-built mapping of split-name
to Task writes no `.multiplex` manifest (no effect at all) at construction;
its `end()` performs exactly the child tasks' `end()` effects — no shared
artifact-config snapshot and no Completion Marker at any parent directory;
and its `run_reduce()` performs no shard discovery and invokes no child's
`reduce`. -/
theorem multiplex_dict_frame (tasks : List (String × TaskState))
    (listing : Path → List String) :
    (multiplexFromDict tasks).2 = [] ∧
      multiplexEnd (multiplexFromDict tasks).1
        = (tasks.map (fun nt => taskEnd nt.2)).flatten ∧
      multiplexRunReduce (multiplexFromDict tasks).1 listing = [] := by
  refine ⟨rfl, ?_, rfl⟩
  simp [multiplexFromDict, multiplexEnd]

/-! ## MultiplexItem and MultiplexTask.process

`MultiplexItem` wraps a Python dict `self._items`; `add` assigns
`self._items[name] = item` (insertion-ordered; updating an existing key
keeps its position) and `items()` iterates the key-value pairs in order.
`MultiplexTask.process` (src/patapsco/pipeline.py lines 158-162) builds a
new `MultiplexItem`, adding `tasks[name].process(value)` for each pair; a
split name with no corresponding child task raises `KeyError`, modelled as
`none`.  For this claim a child task is characterised by its `process`
function. -/

/-- A `MultiplexItem`: the insertion-ordered dict `self._items`. -/
abbrev MItem (α : Type) := List (String × α)

/-- `MultiplexItem.add`: dict assignment `self._items[name] = item` —
updates in place when the key exists, appends otherwise. -/
def addItem {α : Type} (m : MItem α) (name : String) (v : α) : MItem α :=
  if m.any (fun p => p.1 == name) then
    m.map (fun p => if p.1 == name then (p.1, v) else p)
  else m ++ [(name, v)]

/-- `self.tasks[name]` lookup; `none` models the `KeyError`. -/
def lookupTask {α β : Type} (tasks : List (String × (α → β))) (name : String) :
    Option (α → β) :=
  match tasks.find? (fun p => p.1 == name) with
  | some p => some p.2
  | none => none

/-- The loop of `MultiplexTask.process` from an arbitrary accumulator
(`new_item` so far); a `KeyError` aborts the whole call. -/
def multiplexProcessGo {α β : Type} (tasks : List (String × (α → β)))
    (item : MItem α) (acc : Option (MItem β)) : Option (MItem β) :=
  item.foldl
    (fun acc nv =>
      match acc, lookupTask tasks nv.1 with
      | some m, some f => some (addItem m nv.1 (f nv.2))
      | _, _ => none)
    acc

/-- `MultiplexTask.process`: `new_item = MultiplexItem(); for name, value in
item.items(): new_item.add(name, self.tasks[name].process(value)); return
new_item`. -/
def multiplexProcess {α β : Type} (tasks : List (String × (α → β)))
    (item : MItem α) : Option (MItem β) :=
  multiplexProcessGo tasks item (some [])

/-- The output `MultiplexItem` that routing each split through its own task
should produce: each pair `(name, value)` becomes `(name, task value)`
(pairs whose name has no task are dropped; under full coverage none are). -/
def expectedOut {α β : Type} (tasks : List (String × (α → β))) (item : MItem α) : MItem β :=
  item.filterMap (fun nv => (lookupTask tasks nv.1).map (fun f => (nv.1, f nv.2)))

/-- Folding from a `none` accumulator (a raised `KeyError`) stays `none`. -/
theorem multiplexProcessGo_none {α β : Type} (tasks : List (String × (α → β)))
    (item : MItem α) : multiplexProcessGo tasks item none = none := by
  induction item with
  | nil => rfl
  | cons nv rest ih => simpa [multiplexProcessGo, List.foldl_cons] using ih

/-- When the accumulator has none of `item`'s keys yet and every key has a
task, the loop appends one routed pair per input pair, in order. -/
theorem multiplexProcessGo_covered {α β : Type} (tasks : List (String × (α → β))) :
    ∀ (item : MItem α) (acc : MItem β),
      (item.map Prod.fst).Nodup →
      (∀ n ∈ item.map Prod.fst, (lookupTask tasks n).isSome) →
      (∀ n ∈ item.map Prod.fst, acc.any (fun p => p.1 == n) = false) →
      multiplexProcessGo tasks item (some acc) = some (acc ++ expectedOut tasks item) := by
  intro item
  induction item with
  | nil => intro acc _ _ _; simp [multiplexProcessGo, expectedOut]
  | cons nv rest ih =>
    intro acc hnd hcov hfresh
    obtain ⟨f, hf⟩ : ∃ f, lookupTask tasks nv.1 = some f := by
      have := hcov nv.1 (by simp)
      exact Option.isSome_iff_exists.mp this
    have hfreshHead : acc.any (fun p => p.1 == nv.1) = false := hfresh nv.1 (by simp)
    have hadd : addItem acc nv.1 (f nv.2) = acc ++ [(nv.1, f nv.2)] := by
      simp [addItem, hfreshHead]
    have hstep : multiplexProcessGo tasks (nv :: rest) (some acc)
        = multiplexProcessGo tasks rest (some (addItem acc nv.1 (f nv.2))) := by
      simp [multiplexProcessGo, List.foldl_cons, hf]
    rw [hstep, hadd]
    have hnd' : (rest.map Prod.fst).Nodup := by
      simpa using hnd.of_cons
    have hcov' : ∀ n ∈ rest.map Prod.fst, (lookupTask tasks n).isSome := by
      intro n hn; exact hcov n (by simp [hn])
    have hfresh' : ∀ n ∈ rest.map Prod.fst,
        (acc ++ [(nv.1, f nv.2)]).any (fun p => p.1 == n) = false := by
      intro n hn
      have h1 : acc.any (fun p => p.1 == n) = false := hfresh n (by simp [hn])
      have h2 : nv.1 ≠ n := by
        intro he
        have : nv.1 ∉ rest.map Prod.fst := (List.nodup_cons.mp hnd).1
        exact this (he ▸ hn)
      simp [List.any_append, h1, h2]
    rw [ih (acc ++ [(nv.1, f nv.2)]) hnd' hcov' hfresh']
    simp [expectedOut, hf]

/-- If some key of `item` has no task, the loop fails from any accumulator
state. -/
theorem multiplexProcessGo_missing {α β : Type} (tasks : List (String × (α → β))) :
    ∀ (item : MItem α) (acc : MItem β) (n : String),
      n ∈ item.map Prod.fst → lookupTask tasks n = none →
      multiplexProcessGo tasks item (some acc) = none := by
  intro item
  induction item with
  | nil => intro acc n hn _; simp at hn
  | cons nv rest ih =>
    intro acc n hn hmiss
    match hl : lookupTask tasks nv.1 with
    | none =>
      have : multiplexProcessGo tasks (nv :: rest) (some acc)
          = multiplexProcessGo tasks rest none := by
        simp [multiplexProcessGo, List.foldl_cons, hl]
      rw [this, multiplexProcessGo_none]
    | some f =>
      have hne : n ≠ nv.1 := by
        intro he; rw [he, hl] at hmiss; exact Option.noConfusion hmiss
      have hn' : n ∈ rest.map Prod.fst := by
        rcases (by simpa using hn : n = nv.1 ∨ n ∈ rest.map Prod.fst) with h | h
        · exact absurd h hne
        · exact h
      have hstep : multiplexProcessGo tasks (nv :: rest) (some acc)
          = multiplexProcessGo tasks rest (some (addItem acc nv.1 (f nv.2))) := by
        simp [multiplexProcessGo, List.foldl_cons, hl]
      rw [hstep]
      exact ih _ n hn' hmiss

/-- Under full coverage, the routed output has exactly the input's
split-name sequence. -/
theorem expectedOut_map_fst {α β : Type} (tasks : List (String × (α → β))) :
    ∀ item : MItem α,
      (∀ n ∈ item.map Prod.fst, (lookupTask tasks n).isSome) →
      (expectedOut tasks item).map Prod.fst = item.map Prod.fst := by
  intro item
  induction item with
  | nil => intro _; rfl
  | cons nv rest ih =>
    intro hcov
    obtain ⟨f, hf⟩ : ∃ f, lookupTask tasks nv.1 = some f :=
      Option.isSome_iff_exists.mp (hcov nv.1 (by simp))
    have := ih (fun n hn => hcov n (by simp [hn]))
    simp [expectedOut, hf] at this ⊢
    exact this

/-- Under full coverage, input and routed output pairs correspond one to
one: same name, and the output value is that split's task applied to the
input value. -/
theorem expectedOut_forall₂ {α β : Type} (tasks : List (String × (α → β))) :
    ∀ item : MItem α,
      (∀ n ∈ item.map Prod.fst, (lookupTask tasks n).isSome) →
      List.Forall₂
        (fun nv ov => ov.1 = nv.1 ∧ ∀ f, lookupTask tasks nv.1 = some f → ov.2 = f nv.2)
        item (expectedOut tasks item) := by
  intro item
  induction item with
  | nil => intro _; simp [expectedOut]
  | cons nv rest ih =>
    intro hcov
    obtain ⟨f, hf⟩ : ∃ f, lookupTask tasks nv.1 = some f :=
      Option.isSome_iff_exists.mp (hcov nv.1 (by simp))
    have hrest := ih (fun n hn => hcov n (by simp [hn]))
    have hexp : expectedOut tasks (nv :: rest) = (nv.1, f nv.2) :: expectedOut tasks rest := by
      simp [expectedOut, hf]
    rw [hexp]
    refine List.Forall₂.cons ⟨rfl, fun g hg => ?_⟩ hrest
    rw [hf] at hg
    rw [Option.some.inj hg]

/-- C6: For every MultiplexItem whose every split name has a corresponding
child Task, `MultiplexTask.process` returns a MultiplexItem with exactly the
same split-name sequence, where each split's value is that split's
`Task.process` applied to that split's input value; if the item contains a
split name with no corresponding child Task, `process` fails (KeyError). -/
theorem multiplex_process_routes_splits {α β : Type} :
    (∀ (tasks : List (String × (α → β))) (item : MItem α),
        (item.map Prod.fst).Nodup →
        (∀ n ∈ item.map Prod.fst, (lookupTask tasks n).isSome) →
        multiplexProcess tasks item = some (expectedOut tasks item) ∧
          (expectedOut tasks item).map Prod.fst = item.map Prod.fst ∧
          List.Forall₂
            (fun nv ov => ov.1 = nv.1 ∧ ∀ f, lookupTask tasks nv.1 = some f → ov.2 = f nv.2)
            item (expectedOut tasks item)) ∧
    (∀ (tasks : List (String × (α → β))) (item : MItem α) (n : String),
        n ∈ item.map Prod.fst → lookupTask tasks n = none →
        multiplexProcess tasks item = none) := by
  constructor
  · intro tasks item hnd hcov
    refine ⟨?_, expectedOut_map_fst tasks item hcov, expectedOut_forall₂ tasks item hcov⟩
    have := multiplexProcessGo_covered tasks item [] hnd hcov (by intro n _; rfl)
    simpa [multiplexProcess] using this
  · intro tasks item n hn hmiss
    exact multiplexProcessGo_missing tasks item [] n hn hmiss

theorem multiplex_process_routes_splits_witness :
    multiplexProcess [("a", fun v => v + 1), ("b", fun v => v * 2)]
        [("a", 1), ("b", 3)] = some [("a", 2), ("b", 6)] ∧
      multiplexProcess [("a", fun v => v + 1)] [("a", 1), ("b", 3)] = none := by
  constructor
  · have h := (multiplex_process_routes_splits (α := Nat) (β := Nat)).1
      [("a", fun v => v + 1), ("b", fun v => v * 2)] [("a", 1), ("b", 3)]
      (by decide) (by intro n hn; fin_cases hn <;> rfl)
    rw [h.1]
    rfl
  · exact (multiplex_process_routes_splits (α := Nat) (β := Nat)).2
      [("a", fun v => v + 1)] [("a", 1), ("b", 3)] "b" (by decide) rfl

/-! ## The Timed decorator

`TimedTask` (src/patapsco/pipeline.py lines 81-112) wraps another task.  A
task object is the record of its (possibly overridden) methods; `process`
may raise, so it returns `Except`; lifecycle methods are effect traces.
`TimedTask.process` runs the wrapped `process` inside `with self.timer:`;
the `Timer` context manager is in the `util` package (not among the
verified sources) and is modelled from the spec: it accumulates the
elapsed wall-clock time of the call (the `elapsed` oracle) onto the timer
and never suppresses an error.  All other methods delegate directly with no
timer involvement (`batch_process`, `begin`, `end`, `reduce`,
`run_reduce`). -/

/-- A task object: the methods `TimedTask` delegates to. -/
structure TaskObj (α β : Type) where
  process : α → Except PError β
  batchProcess : List α → Except PError (List β)
  begin : List FsEvent
  endEvents : List FsEvent
  reduce : List Path → List FsEvent
  runReduce : List FsEvent

/-- `TimedTask` state: the wrapped task and the accumulated timer. -/
structure TimedTask (α β : Type) where
  task : TaskObj α β
  timer : Nat

/-- `TimedTask.process`: `with self.timer: return self.task.process(item)`;
`elapsed` is the wall-clock duration of this call. -/
def TimedTask.process {α β : Type} (t : TimedTask α β) (elapsed : Nat) (x : α) :
    TimedTask α β × Except PError β :=
  ({ t with timer := t.timer + elapsed }, t.task.process x)

/-- `TimedTask.batch_process`: `return self.task.batch_process(items)`. -/
def TimedTask.batchProcess {α β : Type} (t : TimedTask α β) (xs : List α) :
    Except PError (List β) :=
  t.task.batchProcess xs

/-- `TimedTask.begin`: `self.task.begin()`. -/
def TimedTask.begin {α β : Type} (t : TimedTask α β) : List FsEvent :=
  t.task.begin

/-- `TimedTask.end`: `self.task.end()`. -/
def TimedTask.endEvents {α β : Type} (t : TimedTask α β) : List FsEvent :=
  t.task.endEvents

/-- `TimedTask.reduce`: `self.task.reduce(dirs)`. -/
def TimedTask.reduce {α β : Type} (t : TimedTask α β) (dirs : List Path) : List FsEvent :=
  t.task.reduce dirs

/-- `TimedTask.run_reduce`: `self.task.run_reduce()`. -/
def TimedTask.runReduce {α β : Type} (t : TimedTask α β) : List FsEvent :=
  t.task.runReduce

/-- C7: The Timed decorator is behaviorally transparent: `process` returns
exactly the wrapped task's result (so a raised error propagates unchanged
and an ok value is unchanged), the wrapped task itself is not modified (only
the timer accumulates), and `batch_process`, `begin`, `end`, `reduce` and
`run_reduce` delegate to the wrapped task unchanged. -/
theorem timed_task_transparent {α β : Type} (task : TaskObj α β) (timer elapsed : Nat)
    (x : α) (xs : List α) (dirs : List Path) :
    (TimedTask.process ⟨task, timer⟩ elapsed x).2 = task.process x ∧
      (TimedTask.process ⟨task, timer⟩ elapsed x).1.task = task ∧
      TimedTask.batchProcess ⟨task, timer⟩ xs = task.batchProcess xs ∧
      TimedTask.begin ⟨task, timer⟩ = task.begin ∧
      TimedTask.endEvents ⟨task, timer⟩ = task.endEvents ∧
      TimedTask.reduce ⟨task, timer⟩ dirs = task.reduce dirs ∧
      TimedTask.runReduce ⟨task, timer⟩ = task.runReduce :=
  ⟨rfl, rfl, rfl, rfl, rfl, rfl, rfl⟩

/-! ## The orchestrator (src/pipeline/system.py)

`System.__init__` checks the completeness invariant, cleans an incomplete
document store, and builds the two stage pipelines;
`build_phase1_pipeline`/`build_phase2_pipeline`/`add_io_task` implement the
skip/resume/delete policy per persisted directory.  `is_complete`,
`delete_dir` (the `util.file` module) are not among the verified sources
and are modelled from the spec: a directory is complete iff its Completion
Marker is set, and `delete_dir` removes a directory tree recursively. -/

/-- Equality of path components, `a == b` unfolded to code points so that
concrete instances evaluate. -/
def strEq (a b : String) : Bool :=
  strPrefixAux a.toList b.toList && strPrefixAux b.toList a.toList

/-- `q` lies in the tree rooted at `p` (is `p` itself or below it). -/
def pathUnder : Path → Path → Bool
  | [], _ => true
  | _ :: _, [] => false
  | a :: as, b :: bs => strEq a b && pathUnder as bs

/-- Path equality by components. -/
def pathEq : Path → Path → Bool
  | [], [] => true
  | [], _ :: _ => false
  | _ :: _, [] => false
  | a :: as, b :: bs => strEq a b && pathEq as bs

/-- The filesystem as the orchestrator observes it: the set of directories
whose Completion Marker is set, and the set of existing directories. -/
structure SysFS where
  complete : List Path
  present : List Path
deriving DecidableEq, Repr

/-- Modelled from the spec: `is_complete` (in `util.file`, not among the
verified sources) — the Completion Marker's presence is the only truth used
to decide that a directory's contents are complete. -/
def isComplete (fs : SysFS) (p : Path) : Bool :=
  fs.complete.any (fun q => pathEq q p)

/-- `pathlib.Path(p).exists()`. -/
def dirExists (fs : SysFS) (p : Path) : Bool :=
  fs.present.any (fun q => pathEq q p)

/-- Modelled from the spec: `delete_dir` (in `util.file`, not among the
verified sources) — deletes the directory recursively, so every directory
(and marker) at or below `p` is gone. -/
def deleteDir (fs : SysFS) (p : Path) : SysFS :=
  { complete := fs.complete.filter (fun q => !pathUnder p q),
    present := fs.present.filter (fun q => !pathUnder p q) }

/-- The run configuration fields the orchestrator consults (after
`prepare_config` resolved them to paths; a `save` of Python `False` is
`none`). -/
structure RunConf where
  indexSave : Path
  docStorePath : Path
  documentsSave : Option Path
  topicsSave : Option Path
  retrieveSave : Option Path
  rerankSave : Path
deriving DecidableEq, Repr

/-- The concrete tasks the orchestrator wires into pipelines. -/
inductive TaskTag
  | docProcessor
  | docWriter (p : Path)
  | indexer
  | topicProcessor
  | queryWriter (p : Path)
  | retriever
  | jsonResultsWriter (p : Path)
  | reranker
  | trecResultsWriter (p : Path)
  | scorer
deriving DecidableEq, Repr

/-- The input sources a pipeline can read from. -/
inductive SrcReader
  | docReader
  | topicReader
  | queryReader (p : Path)
  | jsonResultsReader (p : Path)
deriving DecidableEq, Repr

/-- Observable orchestrator actions during `System.__init__`. -/
inductive SysEvent
  | deletedDir (p : Path)
  | builtStage1
  | builtStage2
deriving DecidableEq, Repr

/-- `System.add_io_task` (src/pipeline/system.py lines 93-102): for a stage
persisted at `path` — complete: drop the accumulated tasks and read the
artifact via `reader`; existing but incomplete: delete it recursively, then
append the `writer` task; absent: append the `writer` task. -/
def add_io_task (fs : SysFS) (tasks : List TaskTag) (iterable : SrcReader)
    (path : Option Path) (reader : Path → SrcReader) (writer : Path → TaskTag) :
    SysFS × List SysEvent × List TaskTag × SrcReader :=
  match path with
  | none => (fs, [], tasks, iterable)
  | some p =>
    if isComplete fs p then
      (fs, [], [], reader p)
    else if dirExists fs p then
      (deleteDir fs p, [.deletedDir p], tasks ++ [writer p], iterable)
    else
      (fs, [], tasks ++ [writer p], iterable)

/-- `System.build_phase1_pipeline` (src/pipeline/system.py lines 65-75):
a complete index means no stage-1 pipeline at all (`None`); an existing
incomplete index directory is deleted; otherwise the document
processing/writing/indexing chain is built over the document reader. -/
def build_phase1_pipeline (fs : SysFS) (conf : RunConf) :
    SysFS × List SysEvent × Option (List TaskTag × SrcReader) :=
  if isComplete fs conf.indexSave then
    (fs, [], none)
  else
    let cleaned :=
      if dirExists fs conf.indexSave then
        (deleteDir fs conf.indexSave, [SysEvent.deletedDir conf.indexSave])
      else (fs, [])
    let tasks :=
      [TaskTag.docProcessor]
        ++ (match conf.documentsSave with
            | some p => [TaskTag.docWriter p]
            | none => [])
        ++ [TaskTag.indexer]
    (cleaned.1, cleaned.2 ++ [.builtStage1], some (tasks, .docReader))

/-- `System.build_phase2_pipeline` (src/pipeline/system.py lines 77-91):
topic processing with optional persisted topics, retrieval with optional
persisted results, reranking — where an already-complete rerank directory
raises `PipelineError` and an existing incomplete one is deleted — then the
TREC results writer and the scorer. -/
def build_phase2_pipeline (fs : SysFS) (conf : RunConf) :
    SysFS × List SysEvent × Except PError (List TaskTag × SrcReader) :=
  let s1 := add_io_task fs [TaskTag.topicProcessor] .topicReader conf.topicsSave
    .queryReader .queryWriter
  let fs1 := s1.1
  let ev1 := s1.2.1
  let s2 := add_io_task fs1 (s1.2.2.1 ++ [.retriever]) s1.2.2.2 conf.retrieveSave
    .jsonResultsReader .jsonResultsWriter
  let fs2 := s2.1
  let ev2 := s2.2.1
  if isComplete fs2 conf.rerankSave then
    (fs2, ev1 ++ ev2, .error (.pipelineError "Rerank results already complete"))
  else
    let cleaned :=
      if dirExists fs2 conf.rerankSave then
        (deleteDir fs2 conf.rerankSave, [SysEvent.deletedDir conf.rerankSave])
      else (fs2, [])
    (cleaned.1, ev1 ++ ev2 ++ cleaned.2 ++ [.builtStage2],
      .ok (s2.2.2.1 ++ [.reranker, .trecResultsWriter conf.rerankSave, .scorer], s2.2.2.2))

/-- `System.__init__` (src/pipeline/system.py lines 32-47): check the
completeness invariant first; then delete an existing incomplete document
store; then build the two stage pipelines. -/
def systemInit (fs : SysFS) (conf : RunConf) :
    List SysEvent
      × Except PError (Option (List TaskTag × SrcReader) × (List TaskTag × SrcReader)) :=
  if isComplete fs conf.indexSave && !isComplete fs conf.docStorePath then
    ([], .error (.pipelineError "Cannot run with a complete index and incomplete doc store"))
  else
    let cleaned :=
      if !isComplete fs conf.docStorePath && dirExists fs conf.docStorePath then
        (deleteDir fs conf.docStorePath, [SysEvent.deletedDir conf.docStorePath])
      else (fs, [])
    let p1 := build_phase1_pipeline cleaned.1 conf
    let p2 := build_phase2_pipeline p1.1 conf
    match p2.2.2 with
    | .error e => (cleaned.2 ++ p1.2.1 ++ p2.2.1, .error e)
    | .ok stage2 => (cleaned.2 ++ p1.2.1 ++ p2.2.1, .ok (p1.2.2, stage2))

/-- Counterexample to C1 as stated: at a state with a complete index and an
incomplete document store, `System.__init__` raises `PipelineError` — not a
configuration error (the repository's `ConfigError`). -/
theorem system_init_raises_pipeline_not_config_error :
    errKind
        (systemInit { complete := [["runs", "index"]], present := [["runs", "index"]] }
          { indexSave := ["runs", "index"], docStorePath := ["runs", "docs"],
            documentsSave := none, topicsSave := none, retrieveSave := none,
            rerankSave := ["runs", "rerank"] }).2
        = some .pipeline ∧
      errKind
        (systemInit { complete := [["runs", "index"]], present := [["runs", "index"]] }
          { indexSave := ["runs", "index"], docStorePath := ["runs", "docs"],
            documentsSave := none, topicsSave := none, retrieveSave := none,
            rerankSave := ["runs", "rerank"] }).2
        ≠ some .config := by
  constructor
  · decide
  · decide

/-- C1 (amended): If at startup the index output directory is marked
complete while the upstream document-store directory is not complete,
`System` construction raises `PipelineError` ("Cannot run with a complete
index and incomplete doc store") before any stage pipeline is built or run:
the action trace is empty, in particular neither stage was built. -/
theorem system_init_completeness_invariant (fs : SysFS) (conf : RunConf)
    (h1 : isComplete fs conf.indexSave = true)
    (h2 : isComplete fs conf.docStorePath = false) :
    systemInit fs conf
        = ([], .error
            (.pipelineError "Cannot run with a complete index and incomplete doc store")) ∧
      SysEvent.builtStage1 ∉ (systemInit fs conf).1 ∧
      SysEvent.builtStage2 ∉ (systemInit fs conf).1 := by
  have hc : (isComplete fs conf.indexSave && !isComplete fs conf.docStorePath) = true := by
    rw [h1, h2]; rfl
  refine ⟨?_, ?_, ?_⟩ <;> simp [systemInit, hc]

theorem system_init_completeness_invariant_witness :
    systemInit { complete := [["idx"]], present := [["idx"]] }
        { indexSave := ["idx"], docStorePath := ["docs"], documentsSave := none,
          topicsSave := none, retrieveSave := none, rerankSave := ["rr"] }
      = ([], .error
          (.pipelineError "Cannot run with a complete index and incomplete doc store")) :=
  (system_init_completeness_invariant
    { complete := [["idx"]], present := [["idx"]] }
    { indexSave := ["idx"], docStorePath := ["docs"], documentsSave := none,
      topicsSave := none, retrieveSave := none, rerankSave := ["rr"] }
    (by decide) (by decide)).1

/-- Counterexample to C4 as stated: the rerank stage has a persisted output
directory, yet when its Completion Marker is set the orchestrator does not
skip the stage — `build_phase2_pipeline` raises `PipelineError` ("Rerank
results already complete"). -/
theorem complete_rerank_raises_instead_of_skip :
    (build_phase2_pipeline { complete := [["runs", "rerank"]], present := [] }
          { indexSave := ["runs", "index"], docStorePath := ["runs", "docs"],
            documentsSave := none, topicsSave := none, retrieveSave := none,
            rerankSave := ["runs", "rerank"] }).2.2
      = .error (.pipelineError "Rerank results already complete") := by
  rfl

/-- C4 (amended): For the stages persisted via `add_io_task` (topics.save
and retrieve.save): a set Completion Marker makes the orchestrator drop the
accumulated task chain and read the persisted artifact; a directory that
exists without the marker is deleted recursively before the stage's writer
is appended; an absent directory just gets the writer.  A complete index
likewise means no stage-1 pipeline is built.  The rerank stage however is
not skipped when complete: `build_phase2_pipeline` raises `PipelineError`;
its existing-incomplete directory is deleted recursively before the stage
is built fresh. -/
theorem stage_resume_policy :
    (∀ (fs : SysFS) (tasks : List TaskTag) (it : SrcReader) (p : Path)
        (rd : Path → SrcReader) (wr : Path → TaskTag),
        isComplete fs p = true →
        add_io_task fs tasks it (some p) rd wr = (fs, [], [], rd p)) ∧
    (∀ (fs : SysFS) (tasks : List TaskTag) (it : SrcReader) (p : Path)
        (rd : Path → SrcReader) (wr : Path → TaskTag),
        isComplete fs p = false → dirExists fs p = true →
        add_io_task fs tasks it (some p) rd wr
          = (deleteDir fs p, [.deletedDir p], tasks ++ [wr p], it)) ∧
    (∀ (fs : SysFS) (tasks : List TaskTag) (it : SrcReader) (p : Path)
        (rd : Path → SrcReader) (wr : Path → TaskTag),
        isComplete fs p = false → dirExists fs p = false →
        add_io_task fs tasks it (some p) rd wr = (fs, [], tasks ++ [wr p], it)) ∧
    (∀ (fs : SysFS) (conf : RunConf),
        isComplete fs conf.indexSave = true →
        build_phase1_pipeline fs conf = (fs, [], none)) ∧
    (∀ (fs : SysFS) (conf : RunConf),
        conf.topicsSave = none → conf.retrieveSave = none →
        isComplete fs conf.rerankSave = true →
        build_phase2_pipeline fs conf
          = (fs, [], .error (.pipelineError "Rerank results already complete"))) ∧
    (∀ (fs : SysFS) (conf : RunConf),
        conf.topicsSave = none → conf.retrieveSave = none →
        isComplete fs conf.rerankSave = false → dirExists fs conf.rerankSave = true →
        build_phase2_pipeline fs conf
          = (deleteDir fs conf.rerankSave,
             [.deletedDir conf.rerankSave, .builtStage2],
             .ok ([.topicProcessor, .retriever, .reranker,
                   .trecResultsWriter conf.rerankSave, .scorer], .topicReader))) := by
  refine ⟨?_, ?_, ?_, ?_, ?_, ?_⟩
  · intro fs tasks it p rd wr hc
    simp [add_io_task, hc]
  · intro fs tasks it p rd wr hc hd
    simp [add_io_task, hc, hd]
  · intro fs tasks it p rd wr hc hd
    simp [add_io_task, hc, hd]
  · intro fs conf hc
    simp [build_phase1_pipeline, hc]
  · intro fs conf ht hr hc
    simp [build_phase2_pipeline, add_io_task, ht, hr, hc]
  · intro fs conf ht hr hc hd
    simp [build_phase2_pipeline, add_io_task, ht, hr, hc, hd]

theorem stage_resume_policy_witness :
    add_io_task { complete := [["runs", "topics"]], present := [["runs", "topics"]] }
        [.topicProcessor] .topicReader (some ["runs", "topics"]) .queryReader .queryWriter
      = ({ complete := [["runs", "topics"]], present := [["runs", "topics"]] },
         [], [], .queryReader ["runs", "topics"]) ∧
    add_io_task { complete := [], present := [["runs", "topics"]] }
        [.topicProcessor] .topicReader (some ["runs", "topics"]) .queryReader .queryWriter
      = ({ complete := [], present := [] },
         [.deletedDir ["runs", "topics"]],
         [.topicProcessor, .queryWriter ["runs", "topics"]], .topicReader) ∧
    build_phase1_pipeline { complete := [["runs", "index"]], present := [["runs", "index"]] }
        { indexSave := ["runs", "index"], docStorePath := ["runs", "docs"],
          documentsSave := none, topicsSave := none, retrieveSave := none,
          rerankSave := ["runs", "rerank"] }
      = ({ complete := [["runs", "index"]], present := [["runs", "index"]] }, [], none) := by
  refine ⟨?_, ?_, ?_⟩
  · exact stage_resume_policy.1 _ _ _ _ _ _ (by decide)
  · have h := stage_resume_policy.2.1
      { complete := [], present := [["runs", "topics"]] }
      [.topicProcessor] .topicReader ["runs", "topics"] .queryReader .queryWriter
      (by decide) (by decide)
    rw [h]
    decide
  · exact stage_resume_policy.2.2.2.1 _ _ (by decide)

end Patapsco
